import Mathlib

/-!
Shallow embedding of the slot-discovery and show-to-slot matching core of
`scripts/add-eist-aris-shows.py` (repository `eist-radio/eist-tools`).

Times are modelled as integer seconds (UTC), matching the second-precision
`datetime` arithmetic of the source.  One minute is 60 seconds; the source's
`remaining_minutes = (gap_end - current).total_seconds() / 60 >= 120`
comparisons are exactly `7200 <= gap_end - current` on integer seconds.
Durations of candidate shows are integer minutes.
-/

/-- An occupied schedule entry, as built in `find_empty_slots`
(`{'start': ..., 'end': ..., 'title': ...}`).  `stop` models the Python
key `end` (a Lean keyword). -/
structure OccShow where
  start : Int
  stop : Int
  title : String
deriving DecidableEq

/-- A free gap, as appended to `empty_slots` (`{'start', 'end', 'duration_minutes'}`;
`duration_minutes` is derived as `(stop - start)/60` and only printed, so it is
not carried). -/
structure Gap where
  start : Int
  stop : Int
deriving DecidableEq

/-- A quantized slot, as appended to `valid_slots`
(`{'start', 'end', 'duration_minutes', 'scheduled_duration'}`; the two duration
fields are always equal there, so one is carried). -/
structure PlanSlot where
  start : Int
  stop : Int
  scheduled_duration : Int
deriving DecidableEq

/-- The parts of an eligible show record (`tracks.json` entry) consumed by the
plan matcher: its title and its `scheduled_duration` class. -/
structure TrackShow where
  title : String
  scheduled_duration : Int
deriving DecidableEq

/-- A slot-to-show mapping, as appended to `updated_slots`
(`{'slot': slot, 'show': show}`).  `theShow` models the Python key `show`
(a Lean keyword).  The source appends a mapping only when a show was found
(`if show:`), so the show field is total: no null-candidate pairing exists. -/
structure Mapping where
  slot : PlanSlot
  theShow : TrackShow
deriving DecidableEq

/-- The `media` sub-object of an API show (`{'type': ..., 'trackId': ...}`). -/
structure Media where
  type : String
  trackId : Option String
deriving DecidableEq

/-- The parts of an API show record consumed by `is_eligible_show` and
`build_replay_list`: title, optional media object, and raw duration in
minutes (`show.get('duration', 60)` resolved upstream). -/
structure ApiShow where
  title : String
  media : Option Media
  duration : Int
deriving DecidableEq

/-! ## The "éist arís" title marker (`has_eist_aris_suffix`)

The source compiles `r'\(?\s*[eé]ist\s+ar[ií]s\s*\)?'` with `re.IGNORECASE`
and uses `re.search`.  The leading `\(?\s*` and trailing `\s*\)?` match the
empty string, so a search hit exists iff some position matches
`[eé]ist\s+ar[ií]s` case-insensitively; whitespace is modelled as the ASCII
whitespace characters. -/

def isSpace (c : Char) : Bool :=
  c = ' ' || c = '\t' || c = '\n' || c = '\r' || c = '\x0b' || c = '\x0c'

/-- Drop a (possibly empty) run of whitespace. -/
def skipSpaces : List Char → List Char
  | c :: cs => if isSpace c then skipSpaces cs else c :: cs
  | [] => []

/-- Consume at least one whitespace character (`\s+`), then any further run. -/
def spacesPlus : List Char → Option (List Char)
  | c :: cs => if isSpace c then some (skipSpaces cs) else none
  | [] => none

/-- Consume `[eé]ist` case-insensitively. -/
def consumeEist : List Char → Option (List Char)
  | e :: i :: s :: t :: rest =>
    if (e = 'e' || e = 'E' || e = 'é' || e = 'É') && (i = 'i' || i = 'I')
        && (s = 's' || s = 'S') && (t = 't' || t = 'T') then some rest else none
  | _ => none

/-- Consume `ar[ií]s` case-insensitively. -/
def consumeAris : List Char → Option (List Char)
  | a :: r :: i :: s :: rest =>
    if (a = 'a' || a = 'A') && (r = 'r' || r = 'R')
        && (i = 'i' || i = 'I' || i = 'í' || i = 'Í')
        && (s = 's' || s = 'S') then some rest else none
  | _ => none

/-- Does `[eé]ist\s+ar[ií]s` match at the head of the character list? -/
def eistArisCore (cs : List Char) : Bool :=
  match consumeEist cs with
  | some r1 =>
    match spacesPlus r1 with
    | some r2 => (consumeAris r2).isSome
    | none => false
  | none => false

/-- `re.search` over all positions. -/
def hasEistArisList : List Char → Bool
  | [] => false
  | c :: cs => eistArisCore (c :: cs) || hasEistArisList cs

/-- `EistArisScheduler.has_eist_aris_suffix`. -/
def has_eist_aris_suffix (title : String) : Bool :=
  hasEistArisList title.toList

/-- `EistArisScheduler.is_eligible_show`: has a title, no marker, a media
object of type `"mix"`, and a truthy `trackId`. -/
def is_eligible_show (s : ApiShow) : Bool :=
  if s.title = "" then false
  else if has_eist_aris_suffix s.title then false
  else
    match s.media with
    | none => false
    | some m =>
      if m.type = "mix" then
        match m.trackId with
        | some tid => decide (tid ≠ "")
        | none => false
      else false

/-- The duration-classing step of `build_replay_list`: shows farther than one
minute from both 60 and 120 minutes are skipped (`continue`); otherwise the
class is 120 when `abs(d - 120) < abs(d - 60)`, else 60. -/
def classify (file_duration : Int) : Option Int :=
  let within_1hr := (file_duration - 60).natAbs ≤ 1
  let within_2hr := (file_duration - 120).natAbs ≤ 1
  if ¬ (within_1hr ∨ within_2hr) then none
  else if (file_duration - 120).natAbs < (file_duration - 60).natAbs then some 120
  else some 60

/-- The pure filtering/classing loop of `EistArisScheduler.build_replay_list`
(the API fetch and the pass-through metadata fields are external I/O). -/
def build_replay_list (all_shows : List ApiShow) : List TrackShow :=
  all_shows.filterMap fun s =>
    if is_eligible_show s then (classify s.duration).map fun c => ⟨s.title, c⟩
    else none

/-! ## Gap finding (`EistArisScheduler.find_empty_slots`) -/

/-- Ordering used by both `occupied_slots.sort(key=lambda x: x['start'])`
and `valid_slots.sort(key=lambda x: x['start'])`. -/
def occLe (a b : OccShow) : Prop := a.start ≤ b.start

instance : DecidableRel occLe := fun a b => Int.decLe a.start b.start

def slotLe (a b : PlanSlot) : Prop := a.start ≤ b.start

instance : DecidableRel slotLe := fun a b => Int.decLe a.start b.start

instance : IsTotal PlanSlot slotLe := ⟨fun a b => Int.le_total a.start b.start⟩

instance : IsTrans PlanSlot slotLe := ⟨fun _ _ _ h1 h2 => le_trans h1 h2⟩

/-- The empty-day branch of `find_empty_slots`: with no shows on the day, the
window is pre-split into two-hour blocks (falling back to a one-hour block)
directly; the resulting records land in the `empty_slots` (gap) list. -/
def emptyDayBlocks (dayEnd cur : Int) : List Gap :=
  if _h : cur < dayEnd then
    if _h2 : cur + 7200 ≤ dayEnd then
      ⟨cur, cur + 7200⟩ :: emptyDayBlocks dayEnd (cur + 7200)
    else if _h3 : cur + 3600 ≤ dayEnd then
      ⟨cur, cur + 3600⟩ :: emptyDayBlocks dayEnd (cur + 3600)
    else []
  else []
termination_by (dayEnd - cur).toNat
decreasing_by
  · omega
  · omega

/-- The between-shows loop: a gap for each adjacent pair whose earlier end is
strictly before the later start. -/
def gapsBetween : List OccShow → List Gap
  | a :: b :: rest =>
    (if a.stop < b.start then [⟨a.stop, b.start⟩] else []) ++ gapsBetween (b :: rest)
  | _ => []

/-- One day's contribution to `empty_slots`: the empty-day branch, or the
gap-before-first / gaps-between / gap-after-last emissions. -/
def dayGaps (dayStart dayEnd : Int) (day_shows : List OccShow) : List Gap :=
  match day_shows with
  | [] => emptyDayBlocks dayEnd dayStart
  | first :: rest =>
    (if dayStart < first.start then [⟨dayStart, first.start⟩] else []) ++
    gapsBetween (first :: rest) ++
    (if ((first :: rest).getLast (List.cons_ne_nil _ _)).stop < dayEnd then
      [⟨((first :: rest).getLast (List.cons_ne_nil _ _)).stop, dayEnd⟩] else [])

/-- The gap-accumulation phase of `find_empty_slots`: occupied entries are
sorted by start; each day `d` of the planning horizon uses the window
`09:00:00`–`23:59:59` (`day_start = 9*3600`, `day_end = 23*3600+59*60+59`
seconds past that day's midnight) and the shows whose start lies in
`[day_start, day_end)`. -/
def weekGaps (weekStart : Int) (days : Nat) (occupied : List OccShow) : List Gap :=
  let sortedShows := List.insertionSort occLe occupied
  (List.range days).flatMap fun d =>
    let dayStart := weekStart + (d : Int) * 86400 + 32400
    let dayEnd := weekStart + (d : Int) * 86400 + 86399
    dayGaps dayStart dayEnd
      (sortedShows.filter fun s => decide (dayStart ≤ s.start) && decide (s.start < dayEnd))

/-- The gap-splitting loop of `find_empty_slots`: greedily emit a two-hour
slot while at least 120 minutes remain, else a one-hour slot while at least
60 minutes remain, else stop. -/
def splitGap (gapEnd cur : Int) : List PlanSlot :=
  if _h : cur < gapEnd then
    if _h2 : 7200 ≤ gapEnd - cur then
      ⟨cur, cur + 7200, 120⟩ :: splitGap gapEnd (cur + 7200)
    else if _h3 : 3600 ≤ gapEnd - cur then
      ⟨cur, cur + 3600, 60⟩ :: splitGap gapEnd (cur + 3600)
    else []
  else []
termination_by (gapEnd - cur).toNat
decreasing_by
  · omega
  · omega

/-- `EistArisScheduler.find_empty_slots`: gaps for the week, each split into
slots, and the concatenation sorted ascending by start. -/
def find_empty_slots (weekStart : Int) (days : Nat) (occupied : List OccShow) : List PlanSlot :=
  List.insertionSort slotLe
    ((weekGaps weekStart days occupied).flatMap fun g => splitGap g.stop g.start)

/-! ## Plan matching (`main`, `--plan` mode, lines 1043-1062) -/

/-- The matching loop: walk the slot list once, consuming the 1-hour or
2-hour show list by index according to the slot's class; a slot whose class
pool is exhausted (or whose class is neither 60 nor 120) contributes
nothing to the output. -/
def planMatchAux (shows_1hr shows_2hr : List TrackShow) :
    List PlanSlot → Nat → Nat → List Mapping
  | [], _, _ => []
  | slot :: rest, i1, i2 =>
    if slot.scheduled_duration = 60 then
      if h : i1 < shows_1hr.length then
        ⟨slot, shows_1hr.get ⟨i1, h⟩⟩ :: planMatchAux shows_1hr shows_2hr rest (i1 + 1) i2
      else planMatchAux shows_1hr shows_2hr rest i1 i2
    else if slot.scheduled_duration = 120 then
      if h : i2 < shows_2hr.length then
        ⟨slot, shows_2hr.get ⟨i2, h⟩⟩ :: planMatchAux shows_1hr shows_2hr rest i1 (i2 + 1)
      else planMatchAux shows_1hr shows_2hr rest i1 i2
    else planMatchAux shows_1hr shows_2hr rest i1 i2

/-- The `--plan` mode matcher: shows are partitioned by `scheduled_duration`
into `shows_1hr` and `shows_2hr` and consumed in list order, one index per
class, producing `updated_slots`. -/
def planMatch (empty_slots_data : List PlanSlot) (eligible_shows : List TrackShow) :
    List Mapping :=
  planMatchAux (eligible_shows.filter fun s => s.scheduled_duration == 60)
    (eligible_shows.filter fun s => s.scheduled_duration == 120)
    empty_slots_data 0 0

/-! ## Exclusion-set derivation (modelled from the spec)

Modelled from the spec: the external step that "scans a previously-published
schedule for titles bearing a replay marker and strips that marker to recover
the original candidate title".  No code in the repository implements this
derivation, and the plan matcher takes no exclusion input; the model below is
used to state the exclusion claim against the matcher. -/

/-- Modelled from the spec: consume one occurrence of the replay marker
(`\(?\s*[eé]ist\s+ar[ií]s\s*\)?`) at the head of the list, returning the
remainder. -/
def consumeMarker (cs : List Char) : Option (List Char) := do
  let cs1 := match cs with
    | '(' :: r => skipSpaces r
    | _ => skipSpaces cs
  let r1 ← consumeEist cs1
  let r2 ← spacesPlus r1
  let r3 ← consumeAris r2
  let r4 := skipSpaces r3
  match r4 with
  | ')' :: r5 => pure r5
  | _ => pure r4

/-- Modelled from the spec: remove the leftmost marker occurrence, keeping
the surrounding text. -/
def stripMarkerList : List Char → Option (List Char)
  | [] => none
  | c :: cs =>
    match consumeMarker (c :: cs) with
    | some rest => some rest
    | none => (stripMarkerList cs).map fun r => c :: r

/-- Trim leading and trailing whitespace (Python `str.strip()`). -/
def trimChars (cs : List Char) : List Char :=
  ((cs.dropWhile isSpace).reverse.dropWhile isSpace).reverse

/-- Modelled from the spec: the exclusion set — each previously-published
title bearing the marker, with the marker stripped and whitespace trimmed. -/
def excludedTitles (published : List String) : List String :=
  published.filterMap fun t =>
    (stripMarkerList t.toList).map fun r => String.mk (trimChars r)

/-! ## Quantization lemmas -/
/-- The slot list tiles contiguously starting at cursor `c`, each slot
covering exactly its duration class in minutes. -/
def tilesFrom (c : Int) : List PlanSlot → Prop
  | [] => True
  | x :: xs => x.start = c ∧ x.stop = c + x.scheduled_duration * 60 ∧ tilesFrom x.stop xs

/-- The cursor position after laying out the slot list from cursor `c`. -/
def tileEnd (c : Int) : List PlanSlot → Int
  | [] => c
  | x :: xs => tileEnd x.stop xs

theorem splitGap_tiles (e s : Int) : tilesFrom s (splitGap e s) := by
  refine splitGap.induct e (fun c => tilesFrom c (splitGap e c)) ?_ ?_ ?_ ?_ s
  · intro c hc h2 ih
    rw [splitGap.eq_def, dif_pos hc, dif_pos h2]
    exact ⟨rfl, by norm_num, ih⟩
  · intro c hc h2 h3 ih
    rw [splitGap.eq_def, dif_pos hc, dif_neg h2, dif_pos h3]
    exact ⟨rfl, by norm_num, ih⟩
  · intro c hc h2 h3
    rw [splitGap.eq_def, dif_pos hc, dif_neg h2, dif_neg h3]
    trivial
  · intro c hc
    rw [splitGap.eq_def, dif_neg hc]
    trivial

theorem splitGap_tileEnd (e s : Int) : e - tileEnd s (splitGap e s) < 3600 := by
  refine splitGap.induct e (fun c => e - tileEnd c (splitGap e c) < 3600) ?_ ?_ ?_ ?_ s
  · intro c hc h2 ih
    rw [splitGap.eq_def, dif_pos hc, dif_pos h2]
    simpa [tileEnd] using ih
  · intro c hc h2 h3 ih
    rw [splitGap.eq_def, dif_pos hc, dif_neg h2, dif_pos h3]
    simpa [tileEnd] using ih
  · intro c hc h2 h3
    rw [splitGap.eq_def, dif_pos hc, dif_neg h2, dif_neg h3]
    simp only [tileEnd]
    omega
  · intro c hc
    rw [splitGap.eq_def, dif_neg hc]
    simp only [tileEnd]
    omega

theorem splitGap_classes (e s : Int) : ∀ x ∈ splitGap e s,
    (x.scheduled_duration = 120 ∧ 7200 ≤ e - x.start) ∨
    (x.scheduled_duration = 60 ∧ 3600 ≤ e - x.start ∧ e - x.start < 7200) := by
  refine splitGap.induct e (fun c => ∀ x ∈ splitGap e c,
    (x.scheduled_duration = 120 ∧ 7200 ≤ e - x.start) ∨
    (x.scheduled_duration = 60 ∧ 3600 ≤ e - x.start ∧ e - x.start < 7200)) ?_ ?_ ?_ ?_ s
  · intro c hc h2 ih x hx
    rw [splitGap.eq_def, dif_pos hc, dif_pos h2] at hx
    rcases List.mem_cons.mp hx with rfl | hx
    · exact Or.inl ⟨rfl, h2⟩
    · exact ih x hx
  · intro c hc h2 h3 ih x hx
    rw [splitGap.eq_def, dif_pos hc, dif_neg h2, dif_pos h3] at hx
    rcases List.mem_cons.mp hx with rfl | hx
    · exact Or.inr ⟨rfl, h3, show e - c < 7200 by omega⟩
    · exact ih x hx
  · intro c hc h2 h3 x hx
    rw [splitGap.eq_def, dif_pos hc, dif_neg h2, dif_neg h3] at hx
    simp at hx
  · intro c hc x hx
    rw [splitGap.eq_def, dif_neg hc] at hx
    simp at hx

theorem emptyDayBlocks_pos (e s : Int) : ∀ g ∈ emptyDayBlocks e s, g.start < g.stop := by
  refine emptyDayBlocks.induct e (fun c => ∀ g ∈ emptyDayBlocks e c, g.start < g.stop) ?_ ?_ ?_ ?_ s
  · intro c hc h2 ih g hg
    rw [emptyDayBlocks.eq_def, dif_pos hc, dif_pos h2] at hg
    rcases List.mem_cons.mp hg with rfl | hg
    · show c < c + 7200
      omega
    · exact ih g hg
  · intro c hc h2 h3 ih g hg
    rw [emptyDayBlocks.eq_def, dif_pos hc, dif_neg h2, dif_pos h3] at hg
    rcases List.mem_cons.mp hg with rfl | hg
    · show c < c + 3600
      omega
    · exact ih g hg
  · intro c hc h2 h3 g hg
    rw [emptyDayBlocks.eq_def, dif_pos hc, dif_neg h2, dif_neg h3] at hg
    simp at hg
  · intro c hc g hg
    rw [emptyDayBlocks.eq_def, dif_neg hc] at hg
    simp at hg

set_option maxRecDepth 4000 in
theorem splitGap_demo : splitGap 10800 0 = [⟨0, 7200, 120⟩, ⟨7200, 10800, 60⟩] := by
  simp [splitGap]

/-! ## Gap-finder lemmas -/
theorem gapsBetween_pos : ∀ (l : List OccShow) (g : Gap), g ∈ gapsBetween l → g.start < g.stop := by
  intro l
  induction l with
  | nil => intro g hg; simp [gapsBetween] at hg
  | cons a tl ih =>
    cases tl with
    | nil => intro g hg; simp [gapsBetween] at hg
    | cons b rest =>
      intro g hg
      rw [gapsBetween] at hg
      rcases List.mem_append.mp hg with hg | hg
      · split at hg
        · rcases List.mem_singleton.mp hg with rfl
          assumption
        · simp at hg
      · exact ih g hg

theorem gapsBetween_mem : ∀ (l : List OccShow) (g : Gap), g ∈ gapsBetween l →
    ∃ p ∈ l.zip l.tail, p.1.stop < p.2.start ∧ g.start = p.1.stop ∧ g.stop = p.2.start := by
  intro l
  induction l with
  | nil => intro g hg; simp [gapsBetween] at hg
  | cons a tl ih =>
    cases tl with
    | nil => intro g hg; simp [gapsBetween] at hg
    | cons b rest =>
      intro g hg
      rw [gapsBetween] at hg
      rcases List.mem_append.mp hg with hg | hg
      · split at hg
        · rcases List.mem_singleton.mp hg with rfl
          exact ⟨(a, b), by simp, by assumption, rfl, rfl⟩
        · simp at hg
      · obtain ⟨p, hp, hlt, h1, h2⟩ := ih g hg
        exact ⟨p, by simp [List.mem_cons]; right; simpa using hp, hlt, h1, h2⟩

theorem dayGaps_pos (dayStart dayEnd : Int) (day_shows : List OccShow) :
    ∀ g ∈ dayGaps dayStart dayEnd day_shows, g.start < g.stop := by
  intro g hg
  match day_shows with
  | [] => exact emptyDayBlocks_pos dayEnd dayStart g hg
  | first :: rest =>
    rw [dayGaps] at hg
    rcases List.mem_append.mp hg with hg | hg
    · rcases List.mem_append.mp hg with hg | hg
      · split at hg
        · rcases List.mem_singleton.mp hg with rfl
          assumption
        · simp at hg
      · exact gapsBetween_pos _ g hg
    · split at hg
      · rcases List.mem_singleton.mp hg with rfl
        assumption
      · simp at hg

theorem weekGaps_pos (weekStart : Int) (days : Nat) (occupied : List OccShow) :
    ∀ g ∈ weekGaps weekStart days occupied, g.start < g.stop := by
  intro g hg
  rw [weekGaps] at hg
  obtain ⟨d, _, hg⟩ := List.mem_flatMap.mp hg
  exact dayGaps_pos _ _ _ g hg

/-! ## Plan-matcher lemmas -/
theorem planMatchAux_slot_sublist (s1 s2 : List TrackShow) :
    ∀ (slots : List PlanSlot) (i1 i2 : Nat),
      ((planMatchAux s1 s2 slots i1 i2).map (fun m => m.slot)).Sublist slots := by
  intro slots
  induction slots with
  | nil => intro i1 i2; simp [planMatchAux]
  | cons slot rest ih =>
    intro i1 i2
    simp only [planMatchAux]
    split
    · split
      · simpa using List.Sublist.cons₂ slot (ih (i1 + 1) i2)
      · exact List.Sublist.cons slot (ih i1 i2)
    · split
      · split
        · simpa using List.Sublist.cons₂ slot (ih i1 (i2 + 1))
        · exact List.Sublist.cons slot (ih i1 i2)
      · exact List.Sublist.cons slot (ih i1 i2)

theorem planMatchAux_mem (s1 s2 : List TrackShow) :
    ∀ (slots : List PlanSlot) (i1 i2 : Nat) (m : Mapping),
      m ∈ planMatchAux s1 s2 slots i1 i2 →
      m.slot ∈ slots ∧
      ((m.slot.scheduled_duration = 60 ∧ m.theShow ∈ s1) ∨
       (m.slot.scheduled_duration = 120 ∧ m.theShow ∈ s2)) := by
  intro slots
  induction slots with
  | nil => intro i1 i2 m hm; simp [planMatchAux] at hm
  | cons slot rest ih =>
    intro i1 i2 m hm
    simp only [planMatchAux] at hm
    split at hm
    next h60 =>
      split at hm
      next hlt =>
        rcases List.mem_cons.mp hm with rfl | hm
        · exact ⟨List.mem_cons_self _ _, Or.inl ⟨h60, List.get_mem _ _ _⟩⟩
        · obtain ⟨h1, h2⟩ := ih _ _ m hm
          exact ⟨List.mem_cons_of_mem _ h1, h2⟩
      next =>
        obtain ⟨h1, h2⟩ := ih _ _ m hm
        exact ⟨List.mem_cons_of_mem _ h1, h2⟩
    next =>
      split at hm
      next h120 =>
        split at hm
        next hlt =>
          rcases List.mem_cons.mp hm with rfl | hm
          · exact ⟨List.mem_cons_self _ _, Or.inr ⟨h120, List.get_mem _ _ _⟩⟩
          · obtain ⟨h1, h2⟩ := ih _ _ m hm
            exact ⟨List.mem_cons_of_mem _ h1, h2⟩
        next =>
          obtain ⟨h1, h2⟩ := ih _ _ m hm
          exact ⟨List.mem_cons_of_mem _ h1, h2⟩
      next =>
        obtain ⟨h1, h2⟩ := ih _ _ m hm
        exact ⟨List.mem_cons_of_mem _ h1, h2⟩

theorem planMatchAux_shows60 (s1 s2 : List TrackShow) :
    ∀ (slots : List PlanSlot) (i1 i2 : Nat),
      ((planMatchAux s1 s2 slots i1 i2).filter
          (fun m => m.slot.scheduled_duration == 60)).map (fun m => m.theShow)
        = (s1.drop i1).take (slots.countP (fun s => s.scheduled_duration == 60)) := by
  intro slots
  induction slots with
  | nil => intro i1 i2; simp [planMatchAux]
  | cons slot rest ih =>
    intro i1 i2
    simp only [planMatchAux, List.countP_cons]
    split
    next h60 =>
      have hp : (slot.scheduled_duration == 60) = true := by simp [h60]
      rw [hp]
      split
      next hlt =>
        rw [List.filter_cons_of_pos (by simpa using h60), List.map_cons, ih]
        rw [List.drop_eq_getElem_cons hlt]
        simp [List.take_succ_cons, List.get_eq_getElem]
        rw [List.drop_eq_getElem_cons hlt, List.take_succ_cons]
      next hge =>
        rw [ih]
        have hnil : s1.drop i1 = [] := List.drop_eq_nil_of_le (by omega)
        rw [hnil]
        simp
    next h60f =>
      have hp : (slot.scheduled_duration == 60) = false := by
        simpa using h60f
      rw [hp]
      split
      next h120 =>
        split
        next hlt =>
          rw [List.filter_cons_of_neg (by simp [hp]), ih]
          simp
        next => rw [ih]; simp
      next => rw [ih]; simp

theorem planMatchAux_shows120 (s1 s2 : List TrackShow) :
    ∀ (slots : List PlanSlot) (i1 i2 : Nat),
      ((planMatchAux s1 s2 slots i1 i2).filter
          (fun m => m.slot.scheduled_duration == 120)).map (fun m => m.theShow)
        = (s2.drop i2).take (slots.countP (fun s => s.scheduled_duration == 120)) := by
  intro slots
  induction slots with
  | nil => intro i1 i2; simp [planMatchAux]
  | cons slot rest ih =>
    intro i1 i2
    simp only [planMatchAux, List.countP_cons]
    split
    next h60 =>
      have hp : (slot.scheduled_duration == 120) = false := by simp [h60]
      rw [hp]
      split
      next hlt =>
        rw [List.filter_cons_of_neg (by simp [hp]), ih]
        simp
      next => rw [ih]; simp
    next h60f =>
      split
      next h120 =>
        have hp : (slot.scheduled_duration == 120) = true := by simp [h120]
        rw [hp]
        split
        next hlt =>
          rw [List.filter_cons_of_pos (by simpa using h120), List.map_cons, ih]
          rw [List.drop_eq_getElem_cons hlt]
          simp [List.take_succ_cons, List.get_eq_getElem]
          rw [List.drop_eq_getElem_cons hlt, List.take_succ_cons]
        next hge =>
          rw [ih]
          have hnil : s2.drop i2 = [] := List.drop_eq_nil_of_le (by omega)
          rw [hnil]
          simp
      next h120f =>
        have hp : (slot.scheduled_duration == 120) = false := by simpa using h120f
        rw [hp]
        rw [ih]
        simp

theorem planMatchAux_slots60 (s1 s2 : List TrackShow) :
    ∀ (slots : List PlanSlot) (i1 i2 : Nat),
      ((planMatchAux s1 s2 slots i1 i2).filter
          (fun m => m.slot.scheduled_duration == 60)).map (fun m => m.slot)
        = (slots.filter (fun s => s.scheduled_duration == 60)).take (s1.length - i1) := by
  intro slots
  induction slots with
  | nil => intro i1 i2; simp [planMatchAux]
  | cons slot rest ih =>
    intro i1 i2
    simp only [planMatchAux]
    split
    next h60 =>
      have hp : (slot.scheduled_duration == 60) = true := by simp [h60]
      split
      next hlt =>
        rw [List.filter_cons_of_pos (by simp [hp]), List.map_cons, ih,
          List.filter_cons_of_pos (by simp [hp])]
        have hs : s1.length - i1 = (s1.length - (i1 + 1)) + 1 := by omega
        rw [hs, List.take_succ_cons]
      next hge =>
        rw [ih, List.filter_cons_of_pos (by simp [hp])]
        have h0 : s1.length - i1 = 0 := by omega
        rw [h0]
        simp
    next h60f =>
      have hp : (slot.scheduled_duration == 60) = false := by simpa using h60f
      split
      next h120 =>
        split
        next hlt =>
          rw [List.filter_cons_of_neg (by simp [hp]), ih,
            List.filter_cons_of_neg (by simp [hp])]
        next =>
          rw [ih, List.filter_cons_of_neg (by simp [hp])]
      next h120f =>
        rw [ih, List.filter_cons_of_neg (by simp [hp])]

theorem planMatchAux_slots120 (s1 s2 : List TrackShow) :
    ∀ (slots : List PlanSlot) (i1 i2 : Nat),
      ((planMatchAux s1 s2 slots i1 i2).filter
          (fun m => m.slot.scheduled_duration == 120)).map (fun m => m.slot)
        = (slots.filter (fun s => s.scheduled_duration == 120)).take (s2.length - i2) := by
  intro slots
  induction slots with
  | nil => intro i1 i2; simp [planMatchAux]
  | cons slot rest ih =>
    intro i1 i2
    simp only [planMatchAux]
    split
    next h60 =>
      have hp : (slot.scheduled_duration == 120) = false := by simp [h60]
      split
      next hlt =>
        rw [List.filter_cons_of_neg (by simp [hp]), ih,
          List.filter_cons_of_neg (by simp [hp])]
      next =>
        rw [ih, List.filter_cons_of_neg (by simp [hp])]
    next h60f =>
      split
      next h120 =>
        have hp : (slot.scheduled_duration == 120) = true := by simp [h120]
        split
        next hlt =>
          rw [List.filter_cons_of_pos (by simp [hp]), List.map_cons, ih,
            List.filter_cons_of_pos (by simp [hp])]
          have hs : s2.length - i2 = (s2.length - (i2 + 1)) + 1 := by omega
          rw [hs, List.take_succ_cons]
        next hge =>
          rw [ih, List.filter_cons_of_pos (by simp [hp])]
          have h0 : s2.length - i2 = 0 := by omega
          rw [h0]
          simp
      next h120f =>
        have hp : (slot.scheduled_duration == 120) = false := by simpa using h120f
        rw [ih, List.filter_cons_of_neg (by simp [hp])]

/-! ## Replay-list lemmas -/
theorem build_replay_mem (all_shows : List ApiShow) (t : TrackShow)
    (ht : t ∈ build_replay_list all_shows) :
    ∃ s ∈ all_shows, is_eligible_show s = true ∧ t.title = s.title ∧
      classify s.duration = some t.scheduled_duration := by
  obtain ⟨s, hs, hf⟩ := List.mem_filterMap.mp ht
  split at hf
  next heli =>
    obtain ⟨c, hc, hct⟩ := Option.map_eq_some'.mp hf
    exact ⟨s, hs, heli, by rw [show t = (⟨s.title, c⟩ : TrackShow) from hct.symm], by
      rw [show t = (⟨s.title, c⟩ : TrackShow) from hct.symm]; exact hc⟩
  next => simp at hf

theorem eligible_no_marker (s : ApiShow) (h : is_eligible_show s = true) :
    has_eist_aris_suffix s.title = false := by
  by_contra hs
  rw [Bool.not_eq_false] at hs
  simp [is_eligible_show, hs] at h

theorem classify_some (d c : Int) (h : classify d = some c) :
    ((d - 60).natAbs ≤ 1 ∨ (d - 120).natAbs ≤ 1) ∧
    c = (if (d - 120).natAbs < (d - 60).natAbs then 120 else 60) := by
  rw [classify] at h
  split at h
  next hfar => simp at h
  next hnear =>
    refine ⟨by omega, ?_⟩
    split at h <;> split <;> simp_all

theorem classify_far (d : Int) (h1 : 1 < (d - 60).natAbs) (h2 : 1 < (d - 120).natAbs) :
    classify d = none := by
  rw [classify]
  split
  next => rfl
  next hnear => omega

/-! ## Claim theorems: quantization, gap positivity, classing -/
/-- C3: quantization consumes time greedily from the gap start: the emitted
slots tile contiguously from `gapStart`, a 120-minute slot is emitted exactly
when at least 120 minutes remain and a 60-minute slot exactly when 60-119
minutes remain, the dropped remainder is strictly less than 60 minutes, and a
180-minute gap yields one 120-minute slot followed by one 60-minute slot. -/
theorem eist_c3_theorem :
    (∀ (gapEnd gapStart : Int),
      tilesFrom gapStart (splitGap gapEnd gapStart) ∧
      gapEnd - tileEnd gapStart (splitGap gapEnd gapStart) < 3600 ∧
      ∀ x ∈ splitGap gapEnd gapStart,
        (x.scheduled_duration = 120 ∧ 7200 ≤ gapEnd - x.start) ∨
        (x.scheduled_duration = 60 ∧ 3600 ≤ gapEnd - x.start ∧ gapEnd - x.start < 7200)) ∧
    splitGap 10800 0 = [⟨0, 7200, 120⟩, ⟨7200, 10800, 60⟩] :=
  ⟨fun e s => ⟨splitGap_tiles e s, splitGap_tileEnd e s, splitGap_classes e s⟩, splitGap_demo⟩

/-- Witness for C3 at the 180-minute gap `[0, 10800)`. -/
theorem eist_c3_witness :
    ((⟨0, 7200, 120⟩ : PlanSlot).scheduled_duration = 120 ∧
      (7200 : Int) ≤ 10800 - (⟨0, 7200, 120⟩ : PlanSlot).start) ∨
    ((⟨0, 7200, 120⟩ : PlanSlot).scheduled_duration = 60 ∧
      (3600 : Int) ≤ 10800 - (⟨0, 7200, 120⟩ : PlanSlot).start ∧
      (10800 : Int) - (⟨0, 7200, 120⟩ : PlanSlot).start < 7200) :=
  (eist_c3_theorem.1 10800 0).2.2 ⟨0, 7200, 120⟩
    (by rw [eist_c3_theorem.2]; exact List.mem_cons_self _ _)

/-- C5: every gap emitted by the gap finder has `end > start`, and a
between-shows gap arises only from an adjacent pair whose earlier end is
strictly before the later start. -/
theorem eist_c5_theorem :
    (∀ (weekStart : Int) (days : Nat) (occupied : List OccShow),
      ∀ g ∈ weekGaps weekStart days occupied, g.start < g.stop) ∧
    (∀ (day_shows : List OccShow), ∀ g ∈ gapsBetween day_shows,
      ∃ p ∈ day_shows.zip day_shows.tail,
        p.1.stop < p.2.start ∧ g.start = p.1.stop ∧ g.stop = p.2.start) :=
  ⟨weekGaps_pos, gapsBetween_mem⟩

/-- Witness for C5: a concrete emitted gap is positive, and a concrete
between-shows gap comes from a strictly separated adjacent pair. -/
theorem eist_c5_witness :
    ((⟨32400, 43200⟩ : Gap).start < (⟨32400, 43200⟩ : Gap).stop) ∧
    ∃ p ∈ ([⟨36000, 39600, "a"⟩, ⟨43200, 46800, "b"⟩] : List OccShow).zip
        ([⟨36000, 39600, "a"⟩, ⟨43200, 46800, "b"⟩] : List OccShow).tail,
      p.1.stop < p.2.start ∧ (⟨39600, 43200⟩ : Gap).start = p.1.stop ∧
        (⟨39600, 43200⟩ : Gap).stop = p.2.start :=
  ⟨eist_c5_theorem.1 0 1 [⟨43200, 46800, "Lunch"⟩] ⟨32400, 43200⟩ (by decide),
    eist_c5_theorem.2 [⟨36000, 39600, "a"⟩, ⟨43200, 46800, "b"⟩] ⟨39600, 43200⟩ (by decide)⟩

/-- C6 counterexample: an occupied interval with `end <= start` (12:00 down to
11:00) is not rejected or skipped — the gap finder emits gaps bounded by both
of its endpoints, so the malformed interval participates in gap derivation. -/
theorem eist_c6_counterexample :
    (⟨43200, 39600, "bad"⟩ : OccShow).stop ≤ (⟨43200, 39600, "bad"⟩ : OccShow).start ∧
    ⟨39600, 86399⟩ ∈ weekGaps 0 1 [⟨43200, 39600, "bad"⟩] ∧
    ⟨32400, 43200⟩ ∈ weekGaps 0 1 [⟨43200, 39600, "bad"⟩] := by
  decide

/-- C6 amended: malformed intervals (`end <= start`) are not filtered out and
do participate in gap derivation, but every gap the finder emits still has
`end > start` (each emission is guarded by a strict comparison). -/
theorem eist_c6_theorem :
    (⟨39600, 86399⟩ ∈ weekGaps 0 1 [⟨43200, 39600, "bad"⟩]) ∧
    ∀ (weekStart : Int) (days : Nat) (occupied : List OccShow),
      ∀ g ∈ weekGaps weekStart days occupied, g.start < g.stop :=
  ⟨by decide, weekGaps_pos⟩

/-- Witness for C6 at the gap produced after the malformed interval. -/
theorem eist_c6_witness :
    (⟨39600, 86399⟩ : Gap).start < (⟨39600, 86399⟩ : Gap).stop :=
  eist_c6_theorem.2 0 1 [⟨43200, 39600, "bad"⟩] ⟨39600, 86399⟩ (by decide)

/-- C7: every candidate admitted to the pool comes from an eligible show whose
raw duration is within one minute of 60 or 120 minutes, and its class is 120
exactly when `|d-120| < |d-60|` (else 60); a duration farther than one minute
from both targets is never classed (the show is skipped, not an abort). -/
theorem eist_c7_theorem :
    (∀ (all_shows : List ApiShow) (t : TrackShow), t ∈ build_replay_list all_shows →
      ∃ s ∈ all_shows, is_eligible_show s = true ∧ t.title = s.title ∧
        ((s.duration - 60).natAbs ≤ 1 ∨ (s.duration - 120).natAbs ≤ 1) ∧
        t.scheduled_duration =
          (if (s.duration - 120).natAbs < (s.duration - 60).natAbs then 120 else 60)) ∧
    (∀ d : Int, 1 < (d - 60).natAbs → 1 < (d - 120).natAbs → classify d = none) := by
  constructor
  · intro all_shows t ht
    obtain ⟨s, hs, heli, htitle, hcls⟩ := build_replay_mem all_shows t ht
    obtain ⟨hnear, hval⟩ := classify_some s.duration t.scheduled_duration hcls
    exact ⟨s, hs, heli, htitle, hnear, hval⟩
  · exact classify_far

/-- Witness for C7: a 119-minute show is classed as 120, and a 90-minute
duration is rejected by `classify`. -/
theorem eist_c7_witness :
    (∃ s ∈ ([⟨"Show B", some ⟨"mix", some "t2"⟩, 119⟩] : List ApiShow),
      is_eligible_show s = true ∧ (⟨"Show B", 120⟩ : TrackShow).title = s.title ∧
      ((s.duration - 60).natAbs ≤ 1 ∨ (s.duration - 120).natAbs ≤ 1) ∧
      (⟨"Show B", 120⟩ : TrackShow).scheduled_duration =
        (if (s.duration - 120).natAbs < (s.duration - 60).natAbs then 120 else 60)) ∧
    classify 90 = none :=
  ⟨eist_c7_theorem.1 [⟨"Show B", some ⟨"mix", some "t2"⟩, 119⟩] ⟨"Show B", 120⟩ (by decide),
    eist_c7_theorem.2 90 (by decide) (by decide)⟩

/-! ## Claim theorems: matcher behaviour -/
/-- C1 counterexample: with 2 distinct 60-minute candidates and 5 60-minute
slots the matcher fills only 2 slots and uses each candidate exactly once —
there is no reuse pass, so not all 5 slots get filled and no candidate
appears twice. -/
theorem eist_c1_counterexample :
    (planMatch
        [⟨0, 3600, 60⟩, ⟨3600, 7200, 60⟩, ⟨7200, 10800, 60⟩, ⟨10800, 14400, 60⟩,
          ⟨14400, 18000, 60⟩]
        [⟨"A", 60⟩, ⟨"B", 60⟩]).length = 2 ∧
    (planMatch
        [⟨0, 3600, 60⟩, ⟨3600, 7200, 60⟩, ⟨7200, 10800, 60⟩, ⟨10800, 14400, 60⟩,
          ⟨14400, 18000, 60⟩]
        [⟨"A", 60⟩, ⟨"B", 60⟩]).countP (fun m => m.theShow.title == "A") = 1 ∧
    (planMatch
        [⟨0, 3600, 60⟩, ⟨3600, 7200, 60⟩, ⟨7200, 10800, 60⟩, ⟨10800, 14400, 60⟩,
          ⟨14400, 18000, 60⟩]
        [⟨"A", 60⟩, ⟨"B", 60⟩]).countP (fun m => m.theShow.title == "B") = 1 := by
  decide

/-- C1 amended: when a duration class has more slots than candidates, only the
first `min(#slots, #candidates)` slots of that class — the earliest of that
class in slot-list order — receive an assignment: the slots filled for a class
are exactly `take (pool length)` of that class's slots, so exactly
`min(#slots, #candidates)` of them; the remainder are dropped, and a
duplicate-free pool is never reused — each candidate appears at most once. -/
theorem eist_c1_theorem :
    ∀ (empty_slots_data : List PlanSlot) (eligible_shows : List TrackShow),
      ((planMatch empty_slots_data eligible_shows).filter
          (fun m => m.slot.scheduled_duration == 60)).map (fun m => m.slot)
        = (empty_slots_data.filter (fun s => s.scheduled_duration == 60)).take
            (eligible_shows.filter (fun s => s.scheduled_duration == 60)).length ∧
      ((planMatch empty_slots_data eligible_shows).filter
          (fun m => m.slot.scheduled_duration == 120)).map (fun m => m.slot)
        = (empty_slots_data.filter (fun s => s.scheduled_duration == 120)).take
            (eligible_shows.filter (fun s => s.scheduled_duration == 120)).length ∧
      ((planMatch empty_slots_data eligible_shows).filter
          (fun m => m.slot.scheduled_duration == 60)).length
        = min (empty_slots_data.countP (fun s => s.scheduled_duration == 60))
            (eligible_shows.filter (fun s => s.scheduled_duration == 60)).length ∧
      ((planMatch empty_slots_data eligible_shows).filter
          (fun m => m.slot.scheduled_duration == 120)).length
        = min (empty_slots_data.countP (fun s => s.scheduled_duration == 120))
            (eligible_shows.filter (fun s => s.scheduled_duration == 120)).length ∧
      ((eligible_shows.filter (fun s => s.scheduled_duration == 60)).Nodup →
        (((planMatch empty_slots_data eligible_shows).filter
            (fun m => m.slot.scheduled_duration == 60)).map (fun m => m.theShow)).Nodup) ∧
      ((eligible_shows.filter (fun s => s.scheduled_duration == 120)).Nodup →
        (((planMatch empty_slots_data eligible_shows).filter
            (fun m => m.slot.scheduled_duration == 120)).map (fun m => m.theShow)).Nodup) := by
  intro slots shows
  have h60 := planMatchAux_shows60 (shows.filter fun s => s.scheduled_duration == 60)
    (shows.filter fun s => s.scheduled_duration == 120) slots 0 0
  have h120 := planMatchAux_shows120 (shows.filter fun s => s.scheduled_duration == 60)
    (shows.filter fun s => s.scheduled_duration == 120) slots 0 0
  have hs60 := planMatchAux_slots60 (shows.filter fun s => s.scheduled_duration == 60)
    (shows.filter fun s => s.scheduled_duration == 120) slots 0 0
  have hs120 := planMatchAux_slots120 (shows.filter fun s => s.scheduled_duration == 60)
    (shows.filter fun s => s.scheduled_duration == 120) slots 0 0
  rw [List.drop_zero] at h60 h120
  rw [Nat.sub_zero] at hs60 hs120
  refine ⟨hs60, hs120, ?_, ?_, ?_, ?_⟩
  · have := congrArg List.length h60
    simpa [planMatch, List.length_take] using this
  · have := congrArg List.length h120
    simpa [planMatch, List.length_take] using this
  · intro hnd
    have : (((planMatch slots shows).filter
        (fun m => m.slot.scheduled_duration == 60)).map (fun m => m.theShow)).Sublist
        (shows.filter fun s => s.scheduled_duration == 60) := by
      rw [planMatch, h60]
      exact List.take_sublist _ _
    exact List.Nodup.sublist this hnd
  · intro hnd
    have : (((planMatch slots shows).filter
        (fun m => m.slot.scheduled_duration == 120)).map (fun m => m.theShow)).Sublist
        (shows.filter fun s => s.scheduled_duration == 120) := by
      rw [planMatch, h120]
      exact List.take_sublist _ _
    exact List.Nodup.sublist this hnd

/-- Witness for C1 at the 2-candidates / 5-slots scenario: the filled slots
are exactly the first two slots, and the assigned shows are duplicate-free. -/
theorem eist_c1_witness :
    ((planMatch
        [⟨0, 3600, 60⟩, ⟨3600, 7200, 60⟩, ⟨7200, 10800, 60⟩, ⟨10800, 14400, 60⟩,
          ⟨14400, 18000, 60⟩]
        [⟨"A", 60⟩, ⟨"B", 60⟩]).filter
        (fun m => m.slot.scheduled_duration == 60)).map (fun m => m.slot)
      = ([⟨0, 3600, 60⟩, ⟨3600, 7200, 60⟩, ⟨7200, 10800, 60⟩, ⟨10800, 14400, 60⟩,
          ⟨14400, 18000, 60⟩].filter (fun s => s.scheduled_duration == 60)).take
          ([⟨"A", 60⟩, ⟨"B", 60⟩].filter
            (fun s => TrackShow.scheduled_duration s == 60)).length ∧
    (((planMatch
        [⟨0, 3600, 60⟩, ⟨3600, 7200, 60⟩, ⟨7200, 10800, 60⟩, ⟨10800, 14400, 60⟩,
          ⟨14400, 18000, 60⟩]
        [⟨"A", 60⟩, ⟨"B", 60⟩]).filter
        (fun m => m.slot.scheduled_duration == 60)).map (fun m => m.theShow)).Nodup :=
  ⟨(eist_c1_theorem
      [⟨0, 3600, 60⟩, ⟨3600, 7200, 60⟩, ⟨7200, 10800, 60⟩, ⟨10800, 14400, 60⟩,
        ⟨14400, 18000, 60⟩]
      [⟨"A", 60⟩, ⟨"B", 60⟩]).1,
    (eist_c1_theorem
      [⟨0, 3600, 60⟩, ⟨3600, 7200, 60⟩, ⟨7200, 10800, 60⟩, ⟨10800, 14400, 60⟩,
        ⟨14400, 18000, 60⟩]
      [⟨"A", 60⟩, ⟨"B", 60⟩]).2.2.2.2.1 (by decide)⟩

/-- All shows ever assigned by the plan matcher come from the replay pool,
whose eligibility filter rejects any title bearing the replay marker. -/
theorem planMatch_no_marker (all_shows : List ApiShow) (slots : List PlanSlot)
    (m : Mapping) (hm : m ∈ planMatch slots (build_replay_list all_shows)) :
    has_eist_aris_suffix m.theShow.title = false := by
  rw [planMatch] at hm
  obtain ⟨-, hcls⟩ := planMatchAux_mem _ _ slots 0 0 m hm
  have hpool : m.theShow ∈ build_replay_list all_shows := by
    rcases hcls with ⟨-, hmem⟩ | ⟨-, hmem⟩ <;>
      exact (List.mem_filter.mp hmem).1
  obtain ⟨s, -, heli, htitle, -⟩ := build_replay_mem all_shows m.theShow hpool
  rw [htitle]
  exact eligible_no_marker s heli

/-- C2 counterexample: the previously-published schedule contains
`"Show A (éist arís)"`, so the spec's exclusion set contains the plain title
`"Show A"`; yet a fresh candidate titled `"Show A"` is eligible and receives
an assignment — the matcher consults no exclusion set. -/
theorem eist_c2_counterexample :
    "Show A" ∈ excludedTitles ["Show A (éist arís)"] ∧
    (planMatch [⟨0, 3600, 60⟩]
        (build_replay_list [⟨"Show A", some ⟨"mix", some "t1"⟩, 60⟩])).map
      (fun m => m.theShow.title) = ["Show A"] := by
  decide

/-- C2 amended: the pipeline consults no exclusion set; instead, a candidate
whose own title bears the replay marker is rejected at eligibility time, so no
assignment's show title ever contains the marker. -/
theorem eist_c2_theorem :
    ∀ (all_shows : List ApiShow) (empty_slots_data : List PlanSlot) (m : Mapping),
      m ∈ planMatch empty_slots_data (build_replay_list all_shows) →
      has_eist_aris_suffix m.theShow.title = false :=
  fun all_shows slots m hm => planMatch_no_marker all_shows slots m hm

/-- Witness for C2: the assignment produced for a marker-free candidate has a
marker-free title. -/
theorem eist_c2_witness :
    has_eist_aris_suffix
      (⟨⟨0, 3600, 60⟩, ⟨"Show A", 60⟩⟩ : Mapping).theShow.title = false :=
  eist_c2_theorem [⟨"Show A", some ⟨"mix", some "t1"⟩, 60⟩] [⟨0, 3600, 60⟩]
    ⟨⟨0, 3600, 60⟩, ⟨"Show A", 60⟩⟩ (by decide)

/-- C9: if a duration class has no candidates at all, no assignment is ever
emitted for a slot of that class — such slots are dropped from the output
(no null-candidate pairing exists by construction). -/
theorem eist_c9_theorem :
    ∀ (empty_slots_data : List PlanSlot) (eligible_shows : List TrackShow) (d : Int),
      eligible_shows.filter (fun s => s.scheduled_duration == d) = [] →
      ∀ m ∈ planMatch empty_slots_data eligible_shows, m.slot.scheduled_duration ≠ d := by
  intro slots shows d hd m hm hdeq
  rw [planMatch] at hm
  obtain ⟨-, hcls⟩ := planMatchAux_mem _ _ slots 0 0 m hm
  rcases hcls with ⟨h60, hmem⟩ | ⟨h120, hmem⟩
  · rw [hdeq] at h60
    rw [h60] at hd
    rw [hd] at hmem
    exact List.not_mem_nil _ hmem
  · rw [hdeq] at h120
    rw [h120] at hd
    rw [hd] at hmem
    exact List.not_mem_nil _ hmem

/-- Witness for C9: with no 60-minute candidates, the only assignment made is
for the 120-minute slot. -/
theorem eist_c9_witness :
    (⟨⟨3600, 10800, 120⟩, ⟨"A", 120⟩⟩ : Mapping).slot.scheduled_duration ≠ 60 :=
  eist_c9_theorem [⟨0, 3600, 60⟩, ⟨3600, 10800, 120⟩] [⟨"A", 120⟩] 60 (by decide)
    ⟨⟨3600, 10800, 120⟩, ⟨"A", 120⟩⟩ (by decide)

/-- C10: the matcher is deterministic — it is a pure function of the slot list
and candidate pool (the `--plan` path contains no randomness); within each
duration class the assigned shows are exactly the first
`count(slots of that class)` candidates of the pool in input-list order, and
no candidate is consumed more often than it occurs in the pool. -/
theorem eist_c10_theorem :
    ∀ (empty_slots_data : List PlanSlot) (eligible_shows : List TrackShow),
      ((planMatch empty_slots_data eligible_shows).filter
          (fun m => m.slot.scheduled_duration == 60)).map (fun m => m.theShow)
        = (eligible_shows.filter (fun s => s.scheduled_duration == 60)).take
            (empty_slots_data.countP (fun s => s.scheduled_duration == 60)) ∧
      ((planMatch empty_slots_data eligible_shows).filter
          (fun m => m.slot.scheduled_duration == 120)).map (fun m => m.theShow)
        = (eligible_shows.filter (fun s => s.scheduled_duration == 120)).take
            (empty_slots_data.countP (fun s => s.scheduled_duration == 120)) ∧
      ∀ x : TrackShow,
        (((planMatch empty_slots_data eligible_shows).filter
            (fun m => m.slot.scheduled_duration == 60)).map (fun m => m.theShow)).count x
          ≤ (eligible_shows.filter (fun s => s.scheduled_duration == 60)).count x ∧
        (((planMatch empty_slots_data eligible_shows).filter
            (fun m => m.slot.scheduled_duration == 120)).map (fun m => m.theShow)).count x
          ≤ (eligible_shows.filter (fun s => s.scheduled_duration == 120)).count x := by
  intro slots shows
  have h60 := planMatchAux_shows60 (shows.filter fun s => s.scheduled_duration == 60)
    (shows.filter fun s => s.scheduled_duration == 120) slots 0 0
  have h120 := planMatchAux_shows120 (shows.filter fun s => s.scheduled_duration == 60)
    (shows.filter fun s => s.scheduled_duration == 120) slots 0 0
  rw [List.drop_zero] at h60 h120
  refine ⟨h60, h120, fun x => ⟨?_, ?_⟩⟩
  · rw [planMatch, h60]
    exact List.Sublist.count_le (List.take_sublist _ _) x
  · rw [planMatch, h120]
    exact List.Sublist.count_le (List.take_sublist _ _) x

/-! ## Claim theorems: ordering and the day window -/
/-- C8: the full-week slot list is sorted ascending by start before matching;
the matcher's output slots form a sublist of the input (so chronological order
is preserved and, for a duplicate-free slot list, no two assignments share a
slot), and every assignment pairs equal duration classes. -/
theorem eist_c8_theorem :
    (∀ (weekStart : Int) (days : Nat) (occupied : List OccShow),
      List.Sorted slotLe (find_empty_slots weekStart days occupied)) ∧
    (∀ (empty_slots_data : List PlanSlot) (eligible_shows : List TrackShow),
      ((planMatch empty_slots_data eligible_shows).map (fun m => m.slot)).Sublist
        empty_slots_data ∧
      (empty_slots_data.Nodup →
        ((planMatch empty_slots_data eligible_shows).map (fun m => m.slot)).Nodup) ∧
      (List.Sorted slotLe empty_slots_data →
        List.Sorted slotLe
          ((planMatch empty_slots_data eligible_shows).map (fun m => m.slot))) ∧
      ∀ m ∈ planMatch empty_slots_data eligible_shows,
        m.slot.scheduled_duration = m.theShow.scheduled_duration) := by
  constructor
  · intro weekStart days occupied
    exact List.sorted_insertionSort slotLe _
  · intro slots shows
    have hsub : ((planMatch slots shows).map (fun m => m.slot)).Sublist slots :=
      planMatchAux_slot_sublist _ _ slots 0 0
    refine ⟨hsub, fun hnd => List.Nodup.sublist hsub hnd,
      fun hsorted => List.Pairwise.sublist hsub hsorted, ?_⟩
    intro m hm
    rw [planMatch] at hm
    obtain ⟨-, hcls⟩ := planMatchAux_mem _ _ slots 0 0 m hm
    rcases hcls with ⟨h60, hmem⟩ | ⟨h120, hmem⟩
    · have := (List.mem_filter.mp hmem).2
      rw [h60]
      exact (beq_iff_eq.mp this).symm
    · have := (List.mem_filter.mp hmem).2
      rw [h120]
      exact (beq_iff_eq.mp this).symm

/-- Witness for C8 on a concrete sorted, duplicate-free slot list. -/
theorem eist_c8_witness :
    ((planMatch [⟨0, 3600, 60⟩, ⟨3600, 10800, 120⟩] [⟨"A", 60⟩, ⟨"B", 120⟩]).map
        (fun m => m.slot)).Nodup ∧
    List.Sorted slotLe
      ((planMatch [⟨0, 3600, 60⟩, ⟨3600, 10800, 120⟩] [⟨"A", 60⟩, ⟨"B", 120⟩]).map
        (fun m => m.slot)) ∧
    (⟨⟨0, 3600, 60⟩, ⟨"A", 60⟩⟩ : Mapping).slot.scheduled_duration
      = (⟨⟨0, 3600, 60⟩, ⟨"A", 60⟩⟩ : Mapping).theShow.scheduled_duration :=
  ⟨(eist_c8_theorem.2 [⟨0, 3600, 60⟩, ⟨3600, 10800, 120⟩] [⟨"A", 60⟩, ⟨"B", 120⟩]).2.1
      (by decide),
    (eist_c8_theorem.2 [⟨0, 3600, 60⟩, ⟨3600, 10800, 120⟩] [⟨"A", 60⟩, ⟨"B", 120⟩]).2.2.1
      (by decide),
    (eist_c8_theorem.2 [⟨0, 3600, 60⟩, ⟨3600, 10800, 120⟩] [⟨"A", 60⟩, ⟨"B", 120⟩]).2.2.2
      ⟨⟨0, 3600, 60⟩, ⟨"A", 60⟩⟩ (by decide)⟩

/-- C4 counterexample: the day window is hard-coded to 09:00:00-23:59:59, not
09:00-23:00; with one occupied interval 12:00-13:00 the emitted gaps are
[09:00, 12:00) and [13:00, 23:59:59), not [09:00, 12:00) and [13:00, 23:00). -/
theorem eist_c4_counterexample :
    weekGaps 0 1 [⟨43200, 46800, "Lunch"⟩] ≠ [⟨32400, 43200⟩, ⟨46800, 82800⟩] ∧
    weekGaps 0 1 [⟨43200, 46800, "Lunch"⟩] = [⟨32400, 43200⟩, ⟨46800, 86399⟩] := by
  decide

/-- C4 amended: for any week anchor, the day window runs 09:00:00-23:59:59;
with a single occupied interval 12:00-13:00 the gap finder emits exactly the
gaps [09:00, 12:00) and [13:00, 23:59:59). -/
theorem eist_c4_theorem (weekStart : Int) :
    weekGaps weekStart 1 [⟨weekStart + 43200, weekStart + 46800, "Lunch"⟩]
      = [⟨weekStart + 32400, weekStart + 43200⟩, ⟨weekStart + 46800, weekStart + 86399⟩] := by
  have h1 : weekStart + 32400 ≤ weekStart + 43200 := by omega
  have h2 : weekStart + 43200 < weekStart + 86399 := by omega
  have h3 : weekStart + 32400 < weekStart + 43200 := by omega
  have h4 : weekStart + 46800 < weekStart + 86399 := by omega
  simp [weekGaps, dayGaps, gapsBetween, List.insertionSort, List.orderedInsert,
    List.range_succ, List.range_zero, List.flatMap_cons, List.flatMap_nil, List.filter_cons, h1, h2, h3, h4]
